import Mathlib

/-!
Verification of the branch-count update script (`main.go`).

The program reads `retailerID,branchCount` lines from a CSV file, streams
them over an unbuffered channel from a single producer (`fileLoader`) to a
single consumer, and for each record performs a conditional update against
the `merchant` table (`updateBranchCount`): look the row up by
`retailer_id`; a missing row is a logged no-op success; a row whose
`branch_count` is already set is a logged no-op success; only a row with
`branch_count` NULL receives a single-column UPDATE.

The embedding below mirrors the Go source: machine integers are `Int` with
explicit two's-complement narrowing where the code narrows
(`int32(branchCountInt64)`), the nullable column and the `*int32` field are
`Option Int`, store rows are a list of `Merchant` rows (the external table;
its schema declares `retailer_id` as the primary lookup key), and fallible
store calls take an explicit fault argument describing whether the
underlying SQL lookup/update fails.
-/

/-- Mirrors the Go struct `Merchant` (`retailer_id`, nullable `branch_count`,
`expire_at`); it is both the channel payload and the gorm row type.
`expireAt` stands for the `time.Time` column, which this pipeline never
touches. -/
structure Merchant where
  retailerID : Int
  branchCount : Option Int
  expireAt : Int
deriving DecidableEq, Repr

/-- The value of one decimal digit character, or `none` for a non-digit. -/
def digitVal (c : Char) : Option Nat :=
  if 48 ≤ c.toNat ∧ c.toNat ≤ 57 then some (c.toNat - 48) else none

/-- Accumulate decimal digits left to right; any non-digit fails the
whole parse. -/
def digitsLoop : Nat → List Char → Option Nat
  | acc, [] => some acc
  | acc, c :: cs =>
    match digitVal c with
    | some d => digitsLoop (acc * 10 + d) cs
    | none => none

/-- A non-empty all-digit string's value. -/
def parseDigits : List Char → Option Nat
  | [] => none
  | cs => digitsLoop 0 cs

/-- Go's `strconv.ParseInt(s, 10, 64)`: one optional sign, then decimal
digits, and a 64-bit signed range check (out-of-range input is an error,
`ErrRange`, and the code treats it like any other parse failure). -/
def parseInt64 (s : String) : Option Int :=
  let signed : Option Int :=
    match s.data with
    | '+' :: cs => (parseDigits cs).map Int.ofNat
    | '-' :: cs => (parseDigits cs).map (fun n => -(n : Int))
    | cs => (parseDigits cs).map Int.ofNat
  match signed with
  | none => none
  | some v => if -(2 ^ 63) ≤ v ∧ v < 2 ^ 63 then some v else none

/-- Go's `int32(v)` conversion of an `int64`: two's-complement truncation
to the low 32 bits, interpreted as a signed 32-bit value. -/
def toInt32 (v : Int) : Int :=
  let m := v % (2 ^ 32)
  if m < 2 ^ 31 then m else m - 2 ^ 32

/-- How one iteration of `fileLoader`'s read loop ends the run:
clean EOF, a `csv.Reader` read error (e.g. `ErrFieldCount`), a
`strconv.ParseInt` failure on the given field, or an out-of-bounds index
on `line[field]` (a runtime panic, not a returned error). -/
inductive Outcome where
  | ok
  | readErr
  | parseErr (field : Nat)
  | panicIdx (field : Nat)
deriving DecidableEq, Repr

/-- Result of one iteration of the `fileLoader` loop body on one CSV
record: either a `Merchant` is sent on the channel (carrying the reader's
expected field count forward), or the loop terminates with an `Outcome`. -/
inductive StepRes where
  | emit (m : Merchant) (exp : Nat)
  | fail (o : Outcome)
deriving DecidableEq, Repr

/-- One iteration of `fileLoader`'s loop on one already-split CSV record.
`exp` is `csv.Reader.FieldsPerRecord` state: `none` before the first
record (the first record sets it), and a later record with a different
field count makes `reader.Read` return `ErrFieldCount`. Then the body
parses `line[0]` and `line[1]` with `strconv.ParseInt` — indexing without
a bounds check, so a record shorter than two fields panics. -/
def readStep (exp : Option Nat) (line : List String) : StepRes :=
  let n := exp.getD line.length
  if line.length ≠ n then .fail .readErr
  else
    match line.get? 0 with
    | none => .fail (.panicIdx 0)
    | some f0 =>
      match parseInt64 f0 with
      | none => .fail (.parseErr 0)
      | some rid =>
        match line.get? 1 with
        | none => .fail (.panicIdx 1)
        | some f1 =>
          match parseInt64 f1 with
          | none => .fail (.parseErr 1)
          | some bc => .emit ⟨rid, some (toInt32 bc), 0⟩ n

/-- `fileLoader`'s loop over the file's records, threading the reader's
expected field count: returns the records sent on the channel, in file
order, and how the loop ended. The loop stops at the first failure. -/
def fileLoaderAux : Option Nat → List (List String) → List Merchant × Outcome
  | _, [] => ([], .ok)
  | exp, l :: ls =>
    match readStep exp l with
    | .emit m n =>
      let r := fileLoaderAux (some n) ls
      (m :: r.1, r.2)
    | .fail o => ([], o)

/-- `fileLoader` on a file whose records are already split into fields:
the sequence of records it sends and the outcome it returns. -/
def fileLoader (lines : List (List String)) : List Merchant × Outcome :=
  fileLoaderAux none lines

/-- The reader state after a run of records that all emit: `some exp`
with the final expected-field-count state, or `none` if some record in
the run fails. -/
def okThread : Option Nat → List (List String) → Option (Option Nat)
  | exp, [] => some exp
  | exp, l :: ls =>
    match readStep exp l with
    | .emit _ n => okThread (some n) ls
    | .fail _ => none

/-- Whether the SQL calls inside one `updateBranchCount` invocation fail:
`ok` — both succeed; `lookupFail` — the `Take` query errors (with an
error other than `ErrRecordNotFound`); `updateFail` — the `Update`
statement errors. -/
inductive Fault where
  | ok
  | lookupFail
  | updateFail
deriving DecidableEq, Repr

/-- A SQL statement issued to the store: the point lookup
`SELECT ... WHERE retailer_id = k` or the single-column
`UPDATE merchant SET branch_count = v WHERE retailer_id = k`. -/
inductive GatewayOp where
  | lookup (k : Int)
  | write (k : Int) (v : Int)
deriving DecidableEq, Repr

/-- The log lines the gateway and the consumer emit per record. -/
inductive LogEvent where
  | handling (k : Int)
  | notFound (k : Int)
  | updated (v : Int)
  | alreadySet (v : Int)
  | consumerError
deriving DecidableEq, Repr

/-- What one `updateBranchCount` call produces: the table afterwards, the
SQL statements issued, the log lines written, and the returned error
(`none` is the Go `nil` return). -/
structure GwResult where
  store : List Merchant
  ops : List GatewayOp
  log : List LogEvent
  err : Option Fault
deriving DecidableEq, Repr

/-- gorm's `Take` with the `clause.Eq` condition: the first row of the
table whose `retailer_id` equals `k`, or `ErrRecordNotFound`. -/
def takeRow : List Merchant → Int → Option Merchant
  | [], _ => none
  | r :: rs, k => if r.retailerID = k then some r else takeRow rs k

/-- The SQL `UPDATE merchant SET branch_count = v WHERE retailer_id = k`:
every row matching the key gets the new `branch_count`; all other columns
and all other rows are untouched. -/
def updateRows (s : List Merchant) (k v : Int) : List Merchant :=
  s.map fun r => if r.retailerID = k then { r with branchCount := some v } else r

/-- `updateBranchCount(db, retailerID, branchCount)` from `main.go`:
`Take` by key (a non-not-found lookup error is returned; `ErrRecordNotFound`
logs and returns `nil`); if the row's `BranchCount` is `nil`, log and issue
the single-column `Update` (returning its error if it fails); otherwise log
"already set" and return `nil`. The Go parameter is `*int32`; the producer
always passes a non-nil pointer, modelled here as the dereferenced value. -/
def updateBranchCount (f : Fault) (s : List Merchant) (retailerID : Int)
    (branchCount : Int) : GwResult :=
  if f = .lookupFail then
    { store := s, ops := [.lookup retailerID], log := [], err := some .lookupFail }
  else
    match takeRow s retailerID with
    | none =>
      { store := s, ops := [.lookup retailerID],
        log := [.notFound retailerID], err := none }
    | some merchant =>
      match merchant.branchCount with
      | none =>
        if f = .updateFail then
          { store := s, ops := [.lookup retailerID, .write retailerID branchCount],
            log := [.updated branchCount], err := some .updateFail }
        else
          { store := updateRows s retailerID branchCount,
            ops := [.lookup retailerID, .write retailerID branchCount],
            log := [.updated branchCount], err := none }
      | some w =>
        { store := s, ops := [.lookup retailerID], log := [.alreadySet w], err := none }

/-- What the consumer's drain loop produces over a full run: final table,
all SQL statements in issue order, and the log. -/
structure RunResult where
  store : List Merchant
  ops : List GatewayOp
  log : List LogEvent
deriving DecidableEq, Repr

/-- The consumer goroutine of `handleMerchant`: receives records in send
order and calls `updateBranchCount` once per record; a returned error is
logged (`logrus.Error`) and the loop continues. `faults` is the schedule
of SQL faults, one consumed per record (an exhausted schedule means no
faults). -/
def runConsumer : List Fault → List Merchant → List Merchant → RunResult
  | _, [], s => { store := s, ops := [], log := [] }
  | faults, m :: ms, s =>
    let g := updateBranchCount (faults.headD .ok) s m.retailerID (m.branchCount.getD 0)
    let r := runConsumer faults.tail ms g.store
    { store := r.store
      ops := g.ops ++ r.ops
      log := LogEvent.handling m.retailerID ::
        (g.log ++ ((if g.err.isSome then [LogEvent.consumerError] else []) ++ r.log)) }

/-- The pipeline with a healthy store connection: the producer's records,
in file order, drained by the consumer; the producer's outcome is
returned alongside. -/
def runPipeline (faults : List Fault) (lines : List (List String))
    (s : List Merchant) : RunResult × Outcome :=
  let p := fileLoader lines
  (runConsumer faults p.1 s, p.2)

/-- The store state after a fault-free run of the consumer over a record
list. -/
def runStore (recs : List Merchant) (s : List Merchant) : List Merchant :=
  (runConsumer [] recs s).store

/-- What one `handleMerchant` invocation does, seen from the store.
`dbOk` is whether `newDB` succeeded. The Go code only logs a `newDB`
error (`logrus.Error`, no return), so the producer and consumer start
either way; with a failed open, `db` is `nil` and the first record the
consumer hands to `updateBranchCount` dereferences the nil handle, which
panics — modelled as `crashed := true` with that record in `reached`
(the records actually passed to the Store Gateway). -/
structure PipeRun where
  store : List Merchant
  reached : List Merchant
  ops : List GatewayOp
  log : List LogEvent
  outcome : Outcome
  crashed : Bool
deriving DecidableEq, Repr

/-- `handleMerchant` from `main.go`: open the store (failure is logged,
not fatal), start the consumer and the producer, close the channel when
the producer is done, wait for the consumer. -/
def handleMerchant (dbOk : Bool) (faults : List Fault)
    (lines : List (List String)) (s : List Merchant) : PipeRun :=
  let p := fileLoader lines
  if dbOk then
    let r := runConsumer faults p.1 s
    { store := r.store, reached := p.1, ops := r.ops, log := r.log,
      outcome := p.2, crashed := false }
  else
    match p.1 with
    | [] => { store := s, reached := [], ops := [], log := [],
              outcome := p.2, crashed := false }
    | m :: _ => { store := s, reached := [m], ops := [], log := [],
                  outcome := p.2, crashed := true }

/-- Modelled from the spec: the operation sequence §4.2/§5 promise for a
fault-free run — for each record in file order, one point lookup of its
key, followed by a single-column write of its value exactly when the
looked-up row exists and its branch count is absent. Stated separately
from `runConsumer` so order preservation is a refinement, not a
tautology. -/
def specOps : List Merchant → List Merchant → List GatewayOp
  | [], _ => []
  | m :: ms, s =>
    match takeRow s m.retailerID with
    | none => .lookup m.retailerID :: specOps ms s
    | some row =>
      match row.branchCount with
      | some _ => .lookup m.retailerID :: specOps ms s
      | none =>
        .lookup m.retailerID :: .write m.retailerID (m.branchCount.getD 0) ::
          specOps ms (updateRows s m.retailerID (m.branchCount.getD 0))

/-- The store schema's key constraint: `retailer_id` is the primary
lookup key of the merchant table (spec §3), so no two rows share it. -/
def keysNodup (s : List Merchant) : Prop :=
  (s.map Merchant.retailerID).Nodup

/-- How a row slot may evolve across one pipeline operation: rows are
neither created nor deleted, the key and `expire_at` are untouched, and
a present `branch_count` keeps its exact value (absent may become
present). -/
def rowEvolves : Option Merchant → Option Merchant → Prop
  | none, none => True
  | some r, some r' =>
    r'.retailerID = r.retailerID ∧ r'.expireAt = r.expireAt ∧
      ∀ w, r.branchCount = some w → r'.branchCount = some w
  | _, _ => False

/-- A key the pipeline can no longer change: its lookup either misses or
hits a row whose branch count is already present. -/
def stableFor (k : Int) (s : List Merchant) : Prop :=
  ∀ r, takeRow s k = some r → r.branchCount.isSome = true

/-- The key a `lookup` statement queries; `write` statements are ignored. -/
def lookupKeyOf : GatewayOp → Option Int
  | .lookup k => some k
  | .write _ _ => none

theorem takeRow_key {s : List Merchant} {k : Int} {r : Merchant}
    (h : takeRow s k = some r) : r.retailerID = k := by
  induction s with
  | nil => simp [takeRow] at h
  | cons x xs ih =>
    by_cases hx : x.retailerID = k
    · rw [takeRow, if_pos hx] at h
      injection h with h
      subst h
      exact hx
    · rw [takeRow, if_neg hx] at h
      exact ih h

theorem takeRow_map {f : Merchant → Merchant}
    (hf : ∀ r, (f r).retailerID = r.retailerID) (s : List Merchant) (k : Int) :
    takeRow (s.map f) k = (takeRow s k).map f := by
  induction s with
  | nil => rfl
  | cons x xs ih =>
    by_cases hx : x.retailerID = k
    · simp [takeRow, hf, hx]
    · simp [takeRow, hf, hx, ih]

theorem takeRow_updateRows (s : List Merchant) (k v k' : Int) :
    takeRow (updateRows s k v) k' =
      (takeRow s k').map
        fun r => if r.retailerID = k then { r with branchCount := some v } else r := by
  refine takeRow_map ?_ s k'
  intro r
  by_cases h : r.retailerID = k <;> simp [h]

theorem gw_notFound (s : List Merchant) (k v : Int) (h : takeRow s k = none) :
    updateBranchCount .ok s k v =
      { store := s, ops := [.lookup k], log := [.notFound k], err := none } := by
  simp [updateBranchCount, h]

theorem gw_present (s : List Merchant) (k v w : Int) (r : Merchant)
    (h : takeRow s k = some r) (hb : r.branchCount = some w) :
    updateBranchCount .ok s k v =
      { store := s, ops := [.lookup k], log := [.alreadySet w], err := none } := by
  simp [updateBranchCount, h, hb]

theorem gw_absent (s : List Merchant) (k v : Int) (r : Merchant)
    (h : takeRow s k = some r) (hb : r.branchCount = none) :
    updateBranchCount .ok s k v =
      { store := updateRows s k v, ops := [.lookup k, .write k v],
        log := [.updated v], err := none } := by
  simp [updateBranchCount, h, hb]

theorem updateBranchCount_lookups (f : Fault) (s : List Merchant) (k v : Int) :
    ((updateBranchCount f s k v).ops).filterMap lookupKeyOf = [k] := by
  unfold updateBranchCount
  split
  · simp [lookupKeyOf]
  · cases htake : takeRow s k with
    | none => simp [htake, lookupKeyOf]
    | some r =>
      cases hb : r.branchCount with
      | none =>
        simp only [htake, hb]
        split <;> simp [lookupKeyOf]
      | some w => simp [htake, hb, lookupKeyOf]

theorem updateBranchCount_err_store (f : Fault) (s : List Merchant) (k v : Int)
    (h : (updateBranchCount f s k v).err.isSome = true) :
    (updateBranchCount f s k v).store = s := by
  cases f with
  | lookupFail => simp [updateBranchCount]
  | ok =>
    cases htake : takeRow s k with
    | none => simp [updateBranchCount, htake]
    | some r =>
      cases hb : r.branchCount with
      | none =>
        rw [gw_absent s k v r htake hb] at h
        simp at h
      | some w => simp [updateBranchCount, htake, hb]
  | updateFail =>
    cases htake : takeRow s k with
    | none => simp [updateBranchCount, htake]
    | some r =>
      cases hb : r.branchCount with
      | none => simp [updateBranchCount, htake, hb]
      | some w => simp [updateBranchCount, htake, hb]

theorem runConsumer_nil (fs : List Fault) (s : List Merchant) :
    runConsumer fs [] s = { store := s, ops := [], log := [] } := rfl

theorem runConsumer_cons (fs : List Fault) (m : Merchant) (ms : List Merchant)
    (s : List Merchant) :
    runConsumer fs (m :: ms) s =
      { store := (runConsumer fs.tail ms
          (updateBranchCount (fs.headD .ok) s m.retailerID (m.branchCount.getD 0)).store).store
        ops := (updateBranchCount (fs.headD .ok) s m.retailerID (m.branchCount.getD 0)).ops ++
          (runConsumer fs.tail ms
            (updateBranchCount (fs.headD .ok) s m.retailerID (m.branchCount.getD 0)).store).ops
        log := LogEvent.handling m.retailerID ::
          ((updateBranchCount (fs.headD .ok) s m.retailerID (m.branchCount.getD 0)).log ++
            ((if (updateBranchCount (fs.headD .ok) s m.retailerID
                (m.branchCount.getD 0)).err.isSome then [LogEvent.consumerError] else []) ++
              (runConsumer fs.tail ms
                (updateBranchCount (fs.headD .ok) s m.retailerID
                  (m.branchCount.getD 0)).store).log)) } := rfl

theorem runConsumer_lookups (recs : List Merchant) :
    ∀ (fs : List Fault) (s : List Merchant),
      ((runConsumer fs recs s).ops).filterMap lookupKeyOf =
        recs.map Merchant.retailerID := by
  induction recs with
  | nil => intro fs s; rfl
  | cons m ms ih =>
    intro fs s
    rw [runConsumer_cons]
    simp [List.filterMap_append, updateBranchCount_lookups, ih]

theorem runStore_nil (s : List Merchant) : runStore [] s = s := rfl

theorem runStore_cons (m : Merchant) (ms : List Merchant) (s : List Merchant) :
    runStore (m :: ms) s =
      runStore ms (updateBranchCount .ok s m.retailerID (m.branchCount.getD 0)).store := rfl

theorem stable_apply_id {k : Int} {s : List Merchant} (h : stableFor k s) (v : Int) :
    (updateBranchCount .ok s k v).store = s := by
  cases htake : takeRow s k with
  | none => rw [gw_notFound s k v htake]
  | some r =>
    cases hb : r.branchCount with
    | none =>
      have hs := h r htake
      rw [hb] at hs
      simp at hs
    | some w => rw [gw_present s k v w r htake hb]

theorem stable_after (k v : Int) (s : List Merchant) :
    stableFor k ((updateBranchCount .ok s k v).store) := by
  intro r' hr'
  cases htake : takeRow s k with
  | none =>
    simp only [gw_notFound s k v htake] at hr'
    simp [htake] at hr'
  | some r =>
    cases hb : r.branchCount with
    | none =>
      simp only [gw_absent s k v r htake hb] at hr'
      rw [takeRow_updateRows, htake] at hr'
      have hk := takeRow_key htake
      rw [Option.map_some', if_pos hk] at hr'
      injection hr' with hr'
      subst hr'
      simp
    | some w =>
      simp only [gw_present s k v w r htake hb] at hr'
      rw [htake] at hr'
      injection hr' with hr'
      subst hr'
      simp [hb]

theorem stable_mono {k : Int} {s : List Merchant} (h : stableFor k s)
    (k' v' : Int) : stableFor k ((updateBranchCount .ok s k' v').store) := by
  cases htake : takeRow s k' with
  | none =>
    intro r' hr'
    simp only [gw_notFound s k' v' htake] at hr'
    exact h r' hr'
  | some r =>
    cases hb : r.branchCount with
    | some w =>
      intro r' hr'
      simp only [gw_present s k' v' w r htake hb] at hr'
      exact h r' hr'
    | none =>
      intro r' hr'
      simp only [gw_absent s k' v' r htake hb] at hr'
      rw [takeRow_updateRows] at hr'
      cases hk : takeRow s k with
      | none =>
        rw [hk] at hr'
        simp at hr'
      | some r0 =>
        rw [hk, Option.map_some'] at hr'
        by_cases h0 : r0.retailerID = k'
        · rw [if_pos h0] at hr'
          injection hr' with hr'
          subst hr'
          simp
        · rw [if_neg h0] at hr'
          injection hr' with hr'
          subst hr'
          exact h r0 hk

theorem stable_run_mono {k : Int} (recs : List Merchant) :
    ∀ {s : List Merchant}, stableFor k s → stableFor k (runStore recs s) := by
  induction recs with
  | nil => intro s h; exact h
  | cons m ms ih =>
    intro s h
    rw [runStore_cons]
    exact ih (stable_mono h _ _)

theorem run_makes_stable (recs : List Merchant) :
    ∀ (s : List Merchant) (m : Merchant), m ∈ recs →
      stableFor m.retailerID (runStore recs s) := by
  induction recs with
  | nil =>
    intro s m hm
    cases hm
  | cons r rs ih =>
    intro s m hm
    rw [runStore_cons]
    rcases List.mem_cons.mp hm with rfl | hm'
    · exact stable_run_mono rs (stable_after _ _ _)
    · exact ih _ m hm'

theorem run_stable_id (recs : List Merchant) :
    ∀ (s : List Merchant), (∀ m ∈ recs, stableFor m.retailerID s) →
      runStore recs s = s := by
  induction recs with
  | nil => intro s _; rfl
  | cons r rs ih =>
    intro s h
    rw [runStore_cons, stable_apply_id (h r (List.mem_cons_self r rs)) _]
    exact ih s fun m hm => h m (List.mem_cons_of_mem r hm)

theorem runStore_idem (recs : List Merchant) (s : List Merchant) :
    runStore recs (runStore recs s) = runStore recs s :=
  run_stable_id recs _ fun m hm => run_makes_stable recs s m hm

theorem runConsumer_cons_fault (f : Fault) (fs : List Fault) (m : Merchant)
    (ms : List Merchant) (s : List Merchant) :
    runConsumer (f :: fs) (m :: ms) s =
      { store := (runConsumer fs ms
          (updateBranchCount f s m.retailerID (m.branchCount.getD 0)).store).store
        ops := (updateBranchCount f s m.retailerID (m.branchCount.getD 0)).ops ++
          (runConsumer fs ms
            (updateBranchCount f s m.retailerID (m.branchCount.getD 0)).store).ops
        log := LogEvent.handling m.retailerID ::
          ((updateBranchCount f s m.retailerID (m.branchCount.getD 0)).log ++
            ((if (updateBranchCount f s m.retailerID
                (m.branchCount.getD 0)).err.isSome then [LogEvent.consumerError] else []) ++
              (runConsumer fs ms
                (updateBranchCount f s m.retailerID
                  (m.branchCount.getD 0)).store).log)) } := rfl

theorem runConsumer_cons_ok (m : Merchant) (ms : List Merchant) (s : List Merchant) :
    runConsumer [] (m :: ms) s =
      { store := (runConsumer [] ms
          (updateBranchCount .ok s m.retailerID (m.branchCount.getD 0)).store).store
        ops := (updateBranchCount .ok s m.retailerID (m.branchCount.getD 0)).ops ++
          (runConsumer [] ms
            (updateBranchCount .ok s m.retailerID (m.branchCount.getD 0)).store).ops
        log := LogEvent.handling m.retailerID ::
          ((updateBranchCount .ok s m.retailerID (m.branchCount.getD 0)).log ++
            ((if (updateBranchCount .ok s m.retailerID
                (m.branchCount.getD 0)).err.isSome then [LogEvent.consumerError] else []) ++
              (runConsumer [] ms
                (updateBranchCount .ok s m.retailerID
                  (m.branchCount.getD 0)).store).log)) } := rfl

theorem nodup_take_get :
    ∀ (s : List Merchant) (k : Int) (row : Merchant) (i : Nat) (r : Merchant),
      keysNodup s → takeRow s k = some row → s.get? i = some r →
      r.retailerID = k → r = row := by
  intro s
  induction s with
  | nil =>
    intro k row i r _ _ hget _
    simp at hget
  | cons x xs ih =>
    intro k row i r hs htake hget hk
    have hnd : x.retailerID ∉ xs.map Merchant.retailerID ∧
        (xs.map Merchant.retailerID).Nodup := by
      simpa [keysNodup, List.nodup_cons] using hs
    by_cases hx : x.retailerID = k
    · rw [takeRow, if_pos hx] at htake
      injection htake with htake
      subst htake
      cases i with
      | zero =>
        simp only [List.get?] at hget
        injection hget with hget
        exact hget.symm
      | succ j =>
        exfalso
        have hr_mem : r ∈ xs := List.get?_mem hget
        have hmem : r.retailerID ∈ xs.map Merchant.retailerID :=
          List.mem_map_of_mem _ hr_mem
        rw [hk, ← hx] at hmem
        exact hnd.1 hmem
    · rw [takeRow, if_neg hx] at htake
      cases i with
      | zero =>
        exfalso
        simp only [List.get?] at hget
        injection hget with hget
        rw [← hget] at hk
        exact hx hk
      | succ j =>
        exact ih k row j r hnd.2 htake hget hk

theorem rowEvolves_refl (a : Option Merchant) : rowEvolves a a := by
  cases a with
  | none => trivial
  | some r => exact ⟨rfl, rfl, fun _ hw => hw⟩

theorem gw_store_cases (f : Fault) (s : List Merchant) (k v : Int) :
    (updateBranchCount f s k v).store = s ∨
      ((updateBranchCount f s k v).store = updateRows s k v ∧
        ∃ row, takeRow s k = some row ∧ row.branchCount = none) := by
  cases f with
  | lookupFail => exact Or.inl (by simp [updateBranchCount])
  | updateFail =>
    cases htake : takeRow s k with
    | none => exact Or.inl (by simp [updateBranchCount, htake])
    | some r =>
      cases hb : r.branchCount with
      | none => exact Or.inl (by simp [updateBranchCount, htake, hb])
      | some w => exact Or.inl (by simp [updateBranchCount, htake, hb])
  | ok =>
    cases htake : takeRow s k with
    | none => exact Or.inl (by simp [gw_notFound s k v htake])
    | some r =>
      cases hb : r.branchCount with
      | none =>
        exact Or.inr ⟨by simp [gw_absent s k v r htake hb], r, rfl, hb⟩
      | some w => exact Or.inl (by simp [gw_present s k v w r htake hb])

theorem updateRows_length (s : List Merchant) (k v : Int) :
    (updateRows s k v).length = s.length := by
  simp [updateRows]

theorem updateRows_rowEvolves (s : List Merchant) (k v : Int) (row : Merchant)
    (hs : keysNodup s) (htake : takeRow s k = some row)
    (hb : row.branchCount = none) (i : Nat) :
    rowEvolves (s.get? i) ((updateRows s k v).get? i) := by
  unfold updateRows
  rw [List.get?_map]
  cases hget : s.get? i with
  | none => trivial
  | some r0 =>
    rw [Option.map_some']
    by_cases h0 : r0.retailerID = k
    · rw [if_pos h0]
      refine ⟨rfl, rfl, ?_⟩
      intro w hw
      have heq := nodup_take_get s k row i r0 hs htake hget h0
      rw [heq, hb] at hw
      cases hw
    · rw [if_neg h0]
      exact rowEvolves_refl _

theorem fileLoaderAux_append (pre : List (List String)) :
    ∀ (exp exp' : Option Nat) (suf : List (List String)),
      okThread exp pre = some exp' →
      fileLoaderAux exp (pre ++ suf) =
        ((fileLoaderAux exp pre).1 ++ (fileLoaderAux exp' suf).1,
          (fileLoaderAux exp' suf).2) := by
  induction pre with
  | nil =>
    intro exp exp' suf h
    rw [okThread] at h
    injection h with h
    subst h
    simp [fileLoaderAux]
  | cons l ls ih =>
    intro exp exp' suf h
    rw [okThread] at h
    cases hstep : readStep exp l with
    | emit m n =>
      rw [hstep] at h
      have h' : okThread (some n) ls = some exp' := h
      simp only [List.cons_append, fileLoaderAux, hstep, List.append_eq]
      rw [ih (some n) exp' suf h']
    | fail o =>
      rw [hstep] at h
      cases h

theorem runConsumer_ops_spec (recs : List Merchant) :
    ∀ (s : List Merchant), (runConsumer [] recs s).ops = specOps recs s := by
  induction recs with
  | nil => intro s; rfl
  | cons m ms ih =>
    intro s
    rw [runConsumer_cons_ok]
    cases htake : takeRow s m.retailerID with
    | none =>
      rw [gw_notFound _ _ _ htake]
      simp only [specOps, htake]
      simp [ih]
    | some r =>
      cases hb : r.branchCount with
      | some w =>
        rw [gw_present _ _ _ w r htake hb]
        simp only [specOps, htake, hb]
        simp [ih]
      | none =>
        rw [gw_absent _ _ _ r htake hb]
        simp only [specOps, htake, hb]
        simp [ih]

theorem toInt32_spec (v : Int) :
    toInt32 v % 2 ^ 32 = v % 2 ^ 32 ∧ -(2 ^ 31) ≤ toInt32 v ∧ toInt32 v < 2 ^ 31 := by
  unfold toInt32
  norm_num
  omega

/-- Claim C1: for every record whose retailer ID matches a stored row with
`branch_count` absent, `updateBranchCount` issues exactly one update — the
single-column write of the record's value — and returns success; for every
record whose matching row already has `branch_count` present, no write is
issued regardless of the record's value, and the call returns success. -/
theorem claim1_conditional_write (s : List Merchant) (k v : Int) (row : Merchant)
    (h : takeRow s k = some row) :
    (row.branchCount = none →
      updateBranchCount .ok s k v =
        { store := updateRows s k v, ops := [.lookup k, .write k v],
          log := [.updated v], err := none }) ∧
    ∀ w, row.branchCount = some w →
      updateBranchCount .ok s k v =
        { store := s, ops := [.lookup k], log := [.alreadySet w], err := none } :=
  ⟨fun hb => gw_absent s k v row h hb, fun w hb => gw_present s k v w row h hb⟩

theorem claim1_witness :
    takeRow [⟨1, none, 0⟩] 1 = some ⟨1, none, 0⟩ ∧
    updateBranchCount .ok [⟨1, none, 0⟩] 1 7 =
      { store := updateRows [⟨1, none, 0⟩] 1 7, ops := [.lookup 1, .write 1 7],
        log := [.updated 7], err := none } :=
  ⟨by decide, (claim1_conditional_write [⟨1, none, 0⟩] 1 7 ⟨1, none, 0⟩ (by decide)).1 rfl⟩

/-- Claim C2: running the full pipeline twice over the same input file and
initial store state produces a store state identical to running it once —
after the first run every record's row has its branch count present (or no
row at all), so the second application of each record is a no-op. -/
theorem claim2_pipeline_idempotent (lines : List (List String)) (s : List Merchant) :
    (runPipeline [] lines ((runPipeline [] lines s).1.store)).1.store =
      (runPipeline [] lines s).1.store :=
  runStore_idem (fileLoader lines).1 s

/-- Claim C3: under the store schema's key constraint (`retailer_id` is the
merchant table's primary lookup key, so store states have no duplicate
keys), every `updateBranchCount` call — under any SQL fault outcome —
preserves the invariant: no row is created or deleted, keys and
`expire_at` are untouched, and `branch_count` only transitions from absent
to present: a present value is never overwritten and never cleared. -/
theorem claim3_invariant (f : Fault) (s : List Merchant) (k v : Int)
    (hs : keysNodup s) :
    ((updateBranchCount f s k v).store).length = s.length ∧
    ∀ i : Nat, rowEvolves (s.get? i) (((updateBranchCount f s k v).store).get? i) := by
  rcases gw_store_cases f s k v with h | ⟨h, row, htake, hb⟩
  · rw [h]
    exact ⟨rfl, fun _ => rowEvolves_refl _⟩
  · rw [h]
    exact ⟨updateRows_length s k v,
      fun i => updateRows_rowEvolves s k v row hs htake hb i⟩

theorem claim3_witness :
    keysNodup [⟨1, none, 0⟩, ⟨2, some 5, 0⟩] ∧
    (((updateBranchCount .ok [⟨1, none, 0⟩, ⟨2, some 5, 0⟩] 1 7).store).length =
        ([⟨1, none, 0⟩, ⟨2, some 5, 0⟩] : List Merchant).length ∧
      ∀ i : Nat,
        rowEvolves (([⟨1, none, 0⟩, ⟨2, some 5, 0⟩] : List Merchant).get? i)
          (((updateBranchCount .ok [⟨1, none, 0⟩, ⟨2, some 5, 0⟩] 1 7).store).get? i)) :=
  ⟨by unfold keysNodup; decide,
    claim3_invariant .ok [⟨1, none, 0⟩, ⟨2, some 5, 0⟩] 1 7 (by unfold keysNodup; decide)⟩

/-- Claim C4 (refuted — code bug): when `newDB` fails, `handleMerchant`
only logs the error (`logrus.Error`, no return or `Fatal`) and starts the
producer and consumer anyway, so with a non-empty input the first parsed
record still reaches the Store Gateway — `updateBranchCount` is invoked
with the nil DB handle and the run dies by panic — rather than the run
aborting before any record is processed as the spec requires. -/
theorem claim4_db_error_not_fatal :
    (handleMerchant false [] [["42", "7"]] []).reached = [⟨42, some 7, 0⟩] ∧
    (handleMerchant false [] [["42", "7"]] []).crashed = true := by
  constructor
  · decide
  · decide

/-- Claim C5: on the first parse failure or read error the producer stops
immediately: no record is yielded for the malformed line, no later line
affects the result (the lines after the failure are arbitrary and absent
from the right-hand sides), the channel still closes, and the consumer
processes exactly the records forwarded before the failure before the
pipeline exits. The `panicIdx` outcomes are excluded: an index panic kills
the Go process instead of returning an error. -/
theorem claim5_fail_fast (good : List (List String)) (bad : List String)
    (rest : List (List String)) (exp' : Option Nat) (e : Outcome)
    (hgood : okThread none good = some exp')
    (hbad : readStep exp' bad = .fail e)
    (hnp : ∀ j, e ≠ .panicIdx j) :
    fileLoader (good ++ bad :: rest) = ((fileLoader good).1, e) ∧
    ∀ s : List Merchant,
      (runPipeline [] (good ++ bad :: rest) s).1 =
        runConsumer [] (fileLoader good).1 s := by
  have hload : fileLoader (good ++ bad :: rest) = ((fileLoader good).1, e) := by
    unfold fileLoader
    rw [fileLoaderAux_append good none exp' (bad :: rest) hgood]
    have hb2 : fileLoaderAux exp' (bad :: rest) = ([], e) := by
      rw [fileLoaderAux, hbad]
    rw [hb2]
    simp
  refine ⟨hload, fun s => ?_⟩
  show runConsumer [] (fileLoader (good ++ bad :: rest)).1 s =
    runConsumer [] (fileLoader good).1 s
  rw [hload]

theorem claim5_witness :
    okThread none [["1", "2"]] = some (some 2) ∧
    (fileLoader ([["1", "2"]] ++ ["a", "3"] :: [["4", "5"]]) =
        ((fileLoader [["1", "2"]]).1, .parseErr 0) ∧
      ∀ s : List Merchant,
        (runPipeline [] ([["1", "2"]] ++ ["a", "3"] :: [["4", "5"]]) s).1 =
          runConsumer [] (fileLoader [["1", "2"]]).1 s) :=
  ⟨by decide,
    claim5_fail_fast [["1", "2"]] ["a", "3"] [["4", "5"]] (some 2) (.parseErr 0)
      (by decide) (by decide) (fun j hc => Outcome.noConfusion hc)⟩

/-- Claim C6: a record whose retailer ID has no matching row performs no
update, returns success (`nil`, with a not-found log line), and the
pipeline is not aborted: the store after processing that record followed
by the rest of the batch equals the store after processing the rest
alone. -/
theorem claim6_missing_key (s : List Merchant) (k v : Int)
    (h : takeRow s k = none) :
    updateBranchCount .ok s k v =
      { store := s, ops := [.lookup k], log := [.notFound k], err := none } ∧
    ∀ (t : Int) (rest : List Merchant),
      (runConsumer [] (⟨k, some v, t⟩ :: rest) s).store =
        (runConsumer [] rest s).store := by
  refine ⟨gw_notFound s k v h, fun t rest => ?_⟩
  rw [runConsumer_cons_ok]
  simp [gw_notFound s k v h]

theorem claim6_witness :
    takeRow [⟨1, some 3, 0⟩] 99 = none ∧
    updateBranchCount .ok [⟨1, some 3, 0⟩] 99 5 =
      { store := [⟨1, some 3, 0⟩], ops := [.lookup 99],
        log := [.notFound 99], err := none } :=
  ⟨by decide, (claim6_missing_key [⟨1, some 3, 0⟩] 99 5 (by decide)).1⟩

/-- Claim C7: store operations are issued strictly in file order with no
reordering or fan-out: the fault-free operation trace equals the
spec-described per-record sequence (each record's lookup, then its
conditional write, as a contiguous block before the next record's
operations), and under every fault schedule the lookups are exactly one
per record, in record order. -/
theorem claim7_order (recs : List Merchant) (s : List Merchant) :
    (runConsumer [] recs s).ops = specOps recs s ∧
    ∀ faults : List Fault,
      ((runConsumer faults recs s).ops).filterMap lookupKeyOf =
        recs.map Merchant.retailerID :=
  ⟨runConsumer_ops_spec recs s, fun faults => runConsumer_lookups recs faults s⟩

/-- Claim C8: a lookup or update failure against the store for one record
is non-fatal: the store is unchanged by that record, the consumer logs the
error, and every subsequent record of the batch is still processed (one
lookup per remaining record, in order). -/
theorem claim8_per_record_error (f : Fault) (fs : List Fault) (m : Merchant)
    (ms : List Merchant) (s : List Merchant)
    (h : (updateBranchCount f s m.retailerID (m.branchCount.getD 0)).err.isSome = true) :
    (runConsumer (f :: fs) (m :: ms) s).store = (runConsumer fs ms s).store ∧
    LogEvent.consumerError ∈ (runConsumer (f :: fs) (m :: ms) s).log ∧
    ((runConsumer (f :: fs) (m :: ms) s).ops).filterMap lookupKeyOf =
      m.retailerID :: ms.map Merchant.retailerID := by
  have hstore := updateBranchCount_err_store f s m.retailerID (m.branchCount.getD 0) h
  refine ⟨?_, ?_, ?_⟩
  · rw [runConsumer_cons_fault, hstore]
  · rw [runConsumer_cons_fault]
    simp [h]
  · rw [runConsumer_cons_fault]
    simp [List.filterMap_append, updateBranchCount_lookups, runConsumer_lookups]

theorem claim8_witness :
    (runConsumer [.lookupFail] [⟨1, some 2, 0⟩, ⟨2, some 3, 0⟩] []).store =
        (runConsumer [] [⟨2, some 3, 0⟩] []).store ∧
      LogEvent.consumerError ∈
        (runConsumer [.lookupFail] [⟨1, some 2, 0⟩, ⟨2, some 3, 0⟩] []).log ∧
      ((runConsumer [.lookupFail] [⟨1, some 2, 0⟩, ⟨2, some 3, 0⟩] []).ops).filterMap
          lookupKeyOf =
        (1 : Int) :: ([⟨2, some 3, 0⟩] : List Merchant).map Merchant.retailerID :=
  claim8_per_record_error .lookupFail [] ⟨1, some 2, 0⟩ [⟨2, some 3, 0⟩] [] (by decide)

/-- Claim C9 (refuted as stated): the input value 2^63 is outside the
int32 range, yet the produced record is not the value truncated modulo
2^32 — `strconv.ParseInt(_, 10, 64)` rejects it as out of the 64-bit
range, so the line is a rejected record (parse error on field 1). -/
theorem claim9_counterexample :
    readStep (some 2) ["1", "9223372036854775808"] = .fail (.parseErr 1) ∧
    ¬ ∃ (m : Merchant) (n : Nat),
        readStep (some 2) ["1", "9223372036854775808"] = .emit m n := by
  refine ⟨by decide, ?_⟩
  rintro ⟨m, n, hc⟩
  rw [(by decide : readStep (some 2) ["1", "9223372036854775808"] =
    .fail (.parseErr 1))] at hc
  exact StepRes.noConfusion hc

/-- Claim C9 (amended): field 1 is parsed as a 64-bit signed integer; for
every input value within the int64 range — including every such value
outside the int32 range — the produced `branchCount` is the value reduced
modulo 2^32 with two's-complement sign interpretation, not a rejected
record; only values outside the int64 range fail the parse. -/
theorem claim9_narrowing (f0 f1 : String) (rid v : Int)
    (h0 : parseInt64 f0 = some rid) (h1 : parseInt64 f1 = some v) :
    readStep (some 2) [f0, f1] = .emit ⟨rid, some (toInt32 v), 0⟩ 2 ∧
    toInt32 v % 2 ^ 32 = v % 2 ^ 32 ∧
    -(2 ^ 31) ≤ toInt32 v ∧ toInt32 v < 2 ^ 31 := by
  refine ⟨?_, toInt32_spec v⟩
  unfold readStep
  simp [h0, h1]

theorem claim9_witness :
    parseInt64 "4294967303" = some 4294967303 ∧
    (readStep (some 2) ["1", "4294967303"] =
        .emit ⟨1, some (toInt32 4294967303), 0⟩ 2 ∧
      toInt32 4294967303 % 2 ^ 32 = 4294967303 % 2 ^ 32 ∧
      -(2 ^ 31) ≤ toInt32 4294967303 ∧ toInt32 4294967303 < 2 ^ 31) :=
  ⟨by decide,
    claim9_narrowing "1" "4294967303" 1 4294967303 (by decide) (by decide)⟩

/-- Claim C10: the Record Source indexes fields 0 and 1 without a bounds
check: an input file whose first line has a single field (which the CSV
reader accepts, since the first record fixes the expected field count)
reaches `line[1]` and dies by an index-out-of-range panic instead of
surfacing a parse error. -/
theorem claim10_oob_panic :
    (["42"] : List String).length = 1 ∧
    fileLoader [["42"]] = ([], .panicIdx 1) :=
  ⟨rfl, by decide⟩
